import Mathlib

/-!
Verification of the Batch Orchestration Engine of `node-ai-services`.

The development shallowly embeds the engine's state and operations:

* `Batch` models a `BatchTracker` document (src/models/batchTracker.ts);
  Mongo `Date` timestamp fields are modelled as `Bool` "has been set"
  flags except `timeoutAt`, which is a `Nat` instant compared against a
  `now : Nat` parameter where the code compares dates.
* `Summary` models an `AiSummaries` document (the per-user unit record);
  `sid` models the Mongo `_id`, assigned freshly at creation.
* `St` is the persistent state visible to one batch id: the (optional)
  batch document, the unit documents, a fresh-id counter, and two ghost
  observation logs: `dispatchLog` (one entry per dispatcher pass that
  actually sent requests, listing the `sid`s sent) and `edges` (every
  status change written to the batch document, as a `(from, to)` pair).
* every Mongo `findOneAndUpdate` on the batch document goes through the
  single primitive `batchUpdate`, which applies the update atomically
  when the condition matches and reports whether it matched, exactly
  like the conditional-update protocol the code relies on.

The source status string `partial_complete` is rendered as the
constructor `Status.halfComplete` (and the `partialCompletedAt`
timestamp as `halfCompletedAt`); all other names follow the source.
-/

/-- Lifecycle states of a batch, from the `status` enum of
`batchTracker.ts`. `halfComplete` renders the source string
`partial_complete`. -/
inductive Status where
  | pending
  | halfComplete
  | complete
  | audioRequested
  | audioComplete
  | audioFailed
  | failed
deriving DecidableEq, Repr

/-- One `AiSummaries` document. `inBatch` says whether its `batchId`
field equals the batch id under consideration (the embedding fixes one
batch id; `inBatch = false` models a document of some other batch or
with no `batchId`). -/
structure Summary where
  sid : Nat
  userId : String
  text : String
  inBatch : Bool
  isAudioGenerated : Bool
  audioUrl : Option String
deriving DecidableEq, Repr

/-- One `BatchTracker` document (timestamps as set-flags, see module
doc). -/
structure Batch where
  expectedCount : Nat
  receivedCount : Nat
  status : Status
  timeoutAt : Nat
  halfCompletedAt : Bool
  completedAt : Bool
  audioRequestedAt : Bool
  audioCompletedAt : Bool
  audioFailedAt : Bool
  audioUrl : Option String
  failureReason : Option String
deriving DecidableEq, Repr

/-- The persisted state visible to one batch id, plus ghost logs of
dispatcher passes and of batch status changes. `mixes` counts the
`userMixes` documents created. -/
structure St where
  batch : Option Batch
  summaries : List Summary
  nextId : Nat
  dispatchLog : List (List Nat)
  edges : List (Status × Status)
  mixes : Nat
deriving DecidableEq, Repr

/-- Models `BatchTracker.findOneAndUpdate({batchId, cond}, set f)`: the
update applies atomically when the document exists and satisfies
`cond`; the returned `Bool` says whether a document matched. A status
change is recorded in the ghost `edges` log. -/
def batchUpdate (cond : Batch → Bool) (f : Batch → Batch) (st : St) : St × Bool :=
  match st.batch with
  | none => (st, false)
  | some b =>
    if cond b then
      let b' := f b
      let es := if b'.status ≠ b.status then st.edges ++ [(b.status, b'.status)] else st.edges
      ({ st with batch := some b', edges := es }, true)
    else (st, false)

/-- Documents of this batch: `AiSummaries.find({batchId})`. -/
def batchSummaries (st : St) : List Summary :=
  st.summaries.filter (·.inBatch)

/-- Models `AiSummaries.countDocuments({batchId})`. -/
def totalSummariesCount (st : St) : Nat :=
  (batchSummaries st).length

/-- Models `AiSummaries.countDocuments({batchId, isAudioGenerated: true})`. -/
def summariesWithAudioCount (st : St) : Nat :=
  ((batchSummaries st).filter (·.isAudioGenerated)).length

/-- Models `AiSummaries.find({batchId, isAudioGenerated: {$ne: true}})`:
the units of this batch still lacking their audio artifact. -/
def summariesLackingAudio (st : St) : List Summary :=
  (batchSummaries st).filter (fun s => !s.isAudioGenerated)

/-- AudioGenerationService.triggerAudioGeneration (src/unnamed/part_001
lines 11-62): skips when the batch status is already
`audio_requested`/`audio_complete`/`audio_failed`, skips when no unit
lacks audio, and otherwise fire-and-forget sends one request per unit
lacking audio (recorded as one entry of the ghost `dispatchLog`). The
function performs no database write. -/
def triggerAudioGeneration (st : St) : St :=
  let skip : Bool :=
    match st.batch with
    | some b =>
      b.status == Status.audioRequested || b.status == Status.audioComplete ||
        b.status == Status.audioFailed
    | none => false
  if skip then st
  else
    let sums := summariesLackingAudio st
    if sums.isEmpty then st
    else { st with dispatchLog := st.dispatchLog ++ [sums.map (·.sid)] }

/-- The conditional `pending → partial_complete` transition attempt of
WebhookServices.handlePartialCompletion (part_003 lines 117-124). -/
def halfCondUpdate (st : St) : St × Bool :=
  batchUpdate (fun b => b.status == Status.pending)
    (fun b => { b with status := Status.halfComplete, halfCompletedAt := true }) st

/-- The unconditional `findOneAndUpdate({batchId}, {status:
audio_requested})` write that follows a won transition plus dispatch. -/
def setAudioRequested (st : St) : St :=
  (batchUpdate (fun _ => true)
    (fun b => { b with status := Status.audioRequested, audioRequestedAt := true }) st).1

/-- WebhookServices.handlePartialCompletion (part_003 lines 112-146):
attempt the conditional `pending → partial_complete` update; on a lost
race return with no side effect; on a win trigger the dispatcher and
then set `audio_requested`. -/
def handleHalfCompletion (st : St) : St :=
  let r := halfCondUpdate st
  if r.2 then setAudioRequested (triggerAudioGeneration r.1)
  else r.1

/-- WebhookServices.handleFullCompletion (part_003 lines 151-198),
taking the snapshot document `snap` read by `checkBatchCompletion`: if
the snapshot status was `partial_complete`, only conditionally update
`partial_complete → complete` (audio was already requested at 50%);
otherwise attempt `pending → complete`, and on a win dispatch and set
`audio_requested`. -/
def handleFullCompletion (snap : Batch) (st : St) : St :=
  if snap.status == Status.halfComplete then
    (batchUpdate (fun b => b.status == Status.halfComplete)
      (fun b => { b with status := Status.complete, completedAt := true }) st).1
  else
    let r := batchUpdate (fun b => b.status == Status.pending)
      (fun b => { b with status := Status.complete, completedAt := true }) st
    if r.2 then setAudioRequested (triggerAudioGeneration r.1)
    else r.1

/-- WebhookServices.checkBatchAudioCompletion (part_003 lines 251-284):
when the batch exists and every persisted unit of the batch has its
audio artifact (and at least one unit exists), conditionally update any
status other than `audio_complete` to `audio_complete`. -/
def checkBatchAudioCompletion (st : St) : St :=
  match st.batch with
  | none => st
  | some _ =>
    let total := totalSummariesCount st
    let withAudio := summariesWithAudioCount st
    if withAudio ≥ total ∧ total > 0 then
      (batchUpdate (fun b => b.status ≠ Status.audioComplete)
        (fun b => { b with status := Status.audioComplete, audioCompletedAt := true }) st).1
    else st

/-- WebhookServices.checkBatchCompletion (part_003 lines 64-107):
increment `receivedCount` via `findOneAndUpdate({batchId}, $inc)`;
return silently when no batch document matches; otherwise run the
threshold checks against the returned snapshot. The float expression
`receivedCount / expectedCount * 100 >= 50` is rendered exactly over
naturals as `100 * receivedCount >= 50 * expectedCount`. -/
def checkBatchCompletion (st : St) : St :=
  match st.batch with
  | none => st
  | some b0 =>
    let snap : Batch := { b0 with receivedCount := b0.receivedCount + 1 }
    let st1 : St := { st with batch := some snap }
    let withAudio := summariesWithAudioCount st1
    let st2 :=
      if 100 * snap.receivedCount ≥ 50 * snap.expectedCount ∧ snap.status = Status.pending
      then handleHalfCompletion st1 else st1
    let st3 :=
      if snap.receivedCount ≥ snap.expectedCount ∧
          (snap.status = Status.pending ∨ snap.status = Status.halfComplete)
      then handleFullCompletion snap st2 else st2
    if withAudio ≥ snap.receivedCount ∧ snap.receivedCount > 0
    then checkBatchAudioCompletion st3 else st3

/-- WebhookServices.saveSummary (part_003 lines 39-59): persist a new
summary document (`hasBatchId` says whether its `batchId` field is the
batch id under consideration), then, when a batch id was supplied, run
the completion evaluator. Returns the created document alongside the
new state. -/
def saveSummary (text userId : String) (hasBatchId : Bool) (st : St) : St × Summary :=
  let s : Summary := { sid := st.nextId, userId := userId, text := text,
                       inBatch := hasBatchId, isAudioGenerated := false, audioUrl := none }
  let st1 : St := { st with summaries := st.summaries ++ [s], nextId := st.nextId + 1 }
  let st2 := if hasBatchId then checkBatchCompletion st1 else st1
  (st2, s)

/-- The state evolution of one "unit result arrived" ingress event:
`saveSummary` keeping only the state. -/
def unitArrived (text userId : String) (hasBatchId : Bool) (st : St) : St :=
  (saveSummary text userId hasBatchId st).1

/-- WebhookServices.handleSummaryAudioGenerationSuccess (part_003 lines
204-246): update the summary matched by `{_id: summaryId, userId}` with
the audio artifact (throwing, hence changing nothing further, when no
summary matches), create a `userMixes` document, and when a batch id
was supplied re-check batch audio completion. -/
def handleSummaryAudioGenerationSuccess (audioUrl userId : String) (summaryId : Nat)
    (hasBatchId : Bool) (st : St) : St :=
  let found := st.summaries.any (fun s => s.sid == summaryId && s.userId == userId)
  if !found then st
  else
    let st1 : St :=
      { st with
        summaries := st.summaries.map (fun s =>
          if s.sid == summaryId && s.userId == userId then
            { s with isAudioGenerated := true, audioUrl := some audioUrl }
          else s) }
    let st2 : St := { st1 with mixes := st1.mixes + 1 }
    if hasBatchId then checkBatchAudioCompletion st2 else st2

/-- WebhookServices.handleAudioGenerationSuccess (part_003 lines
291-324, the deprecated batch-level success handler): create a mix
document then unconditionally set the batch status to
`audio_complete`. -/
def handleAudioGenerationSuccess (audioUrl _userId : String) (st : St) : St :=
  let st1 : St := { st with mixes := st.mixes + 1 }
  (batchUpdate (fun _ => true)
    (fun b => { b with status := Status.audioComplete, audioCompletedAt := true,
                       audioUrl := some audioUrl }) st1).1

/-- WebhookServices.handleAudioGenerationFailure (part_003 lines
330-350): unconditionally (`findOneAndUpdate({batchId}, ...)`, no
status condition) set the batch status to `audio_failed`, recording
`audioFailedAt` and `failureReason`. The `userId` argument is received
but unused by the write, as in the source. -/
def handleAudioGenerationFailure (errorMessage _userId : String) (st : St) : St :=
  (batchUpdate (fun _ => true)
    (fun b => { b with status := Status.audioFailed, audioFailedAt := true,
                       failureReason := some errorMessage }) st).1

/-- BatchTimeoutService.handleTimeoutBatch (commonFunctions.ts lines
182-284), on the snapshot `snap` returned by the sweep query: skip
unless the snapshot status is `pending`/`partial_complete`; reconcile
`receivedCount` to the true persisted unit count when they differ; with
at least one unit, from `pending` force `complete` then either dispatch
and set `audio_requested` (some unit lacks audio) or set
`audio_complete` (none lacks), and from `partial_complete` only mark
`complete`; with zero units conditionally mark the batch `failed`. -/
def handleTimeoutBatch (snap : Batch) (st : St) : St :=
  if !(snap.status == Status.pending || snap.status == Status.halfComplete) then st
  else
    let actual := totalSummariesCount st
    let withAudio := summariesWithAudioCount st
    let st1 :=
      if actual ≠ snap.receivedCount then
        (batchUpdate (fun _ => true) (fun b => { b with receivedCount := actual }) st).1
      else st
    if actual > 0 then
      let needing := actual - withAudio
      if snap.status == Status.pending then
        let r := batchUpdate (fun b => b.status == Status.pending)
          (fun b => { b with status := Status.complete, completedAt := true }) st1
        if !r.2 then r.1
        else if needing > 0 then
          setAudioRequested (triggerAudioGeneration r.1)
        else
          (batchUpdate (fun _ => true)
            (fun b => { b with status := Status.audioComplete, audioCompletedAt := true }) r.1).1
      else
        (batchUpdate (fun b => b.status == Status.halfComplete)
          (fun b => { b with status := Status.complete, completedAt := true }) st1).1
    else
      (batchUpdate (fun b => b.status == Status.pending || b.status == Status.halfComplete)
        (fun b => { b with status := Status.failed, completedAt := true }) st1).1

/-- BatchTimeoutService.processTimeoutBatches (commonFunctions.ts lines
34-53): the sweep query `find({timeoutAt: {$lte: now}, status: {$in:
[pending, partial_complete]}})` restricted to the one batch id of the
embedding, feeding the matching document to `handleTimeoutBatch`. -/
def processTimeoutBatches (now : Nat) (st : St) : St :=
  match st.batch with
  | some b =>
    if b.timeoutAt ≤ now ∧ (b.status = Status.pending ∨ b.status = Status.halfComplete)
    then handleTimeoutBatch b st else st
  | none => st

/-- BatchTimeoutService.recoverFailedBatch (commonFunctions.ts lines
87-150), on the snapshot `snap` and the unit count `summaryCount` its
caller measured: skip unless the snapshot is still `failed`;
conditionally update `failed → complete` setting `receivedCount` to the
measured count; on a win, dispatch and set `audio_requested` when some
unit still needs audio, otherwise set `audio_complete`. -/
def recoverFailedBatch (snap : Batch) (summaryCount : Nat) (st : St) : St :=
  if snap.status ≠ Status.failed then st
  else
    let withAudio := summariesWithAudioCount st
    let needing := summaryCount - withAudio
    let r := batchUpdate (fun b => b.status == Status.failed)
      (fun b => { b with receivedCount := summaryCount, status := Status.complete,
                         completedAt := true }) st
    if !r.2 then r.1
    else if needing > 0 then
      setAudioRequested (triggerAudioGeneration r.1)
    else
      (batchUpdate (fun _ => true)
        (fun b => { b with status := Status.audioComplete, audioCompletedAt := true }) r.1).1

/-- BatchTimeoutService.processOrphanedSummaries (commonFunctions.ts
lines 59-82): for the batch matching `{status: failed, receivedCount:
0}`, count its persisted units and recover it when at least one
exists. -/
def processOrphanedSummaries (st : St) : St :=
  match st.batch with
  | some b =>
    if b.status = Status.failed ∧ b.receivedCount = 0 then
      let cnt := totalSummariesCount st
      if cnt > 0 then recoverFailedBatch b cnt st else st
    else st
  | none => st

/-- BatchTimeoutService.triggerPartialCompletion (commonFunctions.ts
lines 289-329): the sweep's redundant 50% trigger; identical protocol
to `handleHalfCompletion` behind a snapshot pending check. -/
def triggerHalfCompletion (snap : Batch) (st : St) : St :=
  if snap.status ≠ Status.pending then st
  else
    let r := halfCondUpdate st
    if !r.2 then r.1
    else setAudioRequested (triggerAudioGeneration r.1)

/-- BatchTimeoutService.checkPartialCompletionBatches (commonFunctions.ts
lines 155-177): for the batch matching `{status: pending,
receivedCount: {$gt: 0}}`, re-apply the 50% guard and trigger the
partial-completion protocol. -/
def checkHalfCompletionBatches (st : St) : St :=
  match st.batch with
  | some b =>
    if b.status = Status.pending ∧ b.receivedCount > 0 ∧
        100 * b.receivedCount ≥ 50 * b.expectedCount
    then triggerHalfCompletion b st else st
  | none => st

/-- The operations of the engine named by the spec: webhook ingress
(unit arrival, per-summary audio success, legacy batch audio success,
audio failure) and the three sweep passes. -/
inductive Op where
  | unitArrivedOp (text userId : String) (hasBatchId : Bool)
  | audioSuccessOp (audioUrl userId : String) (summaryId : Nat) (hasBatchId : Bool)
  | audioSuccessLegacyOp (audioUrl userId : String)
  | audioFailureOp (errorMessage userId : String)
  | timeoutPassOp (now : Nat)
  | orphanPassOp
  | halfCompletionPassOp
deriving DecidableEq, Repr

/-- State evolution of one engine operation. -/
def Op.apply : Op → St → St
  | Op.unitArrivedOp t u hb => unitArrived t u hb
  | Op.audioSuccessOp a u sid hb => handleSummaryAudioGenerationSuccess a u sid hb
  | Op.audioSuccessLegacyOp a u => handleAudioGenerationSuccess a u
  | Op.audioFailureOp e u => handleAudioGenerationFailure e u
  | Op.timeoutPassOp now => processTimeoutBatches now
  | Op.orphanPassOp => processOrphanedSummaries
  | Op.halfCompletionPassOp => checkHalfCompletionBatches

/-- Sequential execution of a list of engine operations. -/
def applyOps (ops : List Op) (st : St) : St :=
  ops.foldl (fun s o => Op.apply o s) st

/-- WebhookServices.checkBatchCompletion with the fault that the
`$inc` `findOneAndUpdate` throws: the handler's catch-all (part_003
lines 104-106) logs the error and returns, leaving every record
untouched and throwing nothing further. -/
def checkBatchCompletionF (incFails : Bool) (st : St) : St :=
  if incFails then st else checkBatchCompletion st

/-- WebhookServices.saveSummary with fault injection: a create failure
(`AiSummaries.create` throws) is rethrown by the handler's catch
(part_003 lines 55-58) before anything is persisted; a failure inside
the completion evaluator is swallowed there and never reaches this
function's catch. -/
def saveSummaryE (createFails incFails : Bool) (text userId : String) (hasBatchId : Bool)
    (st : St) : Except Unit (St × Summary) :=
  if createFails then Except.error ()
  else
    let s : Summary := { sid := st.nextId, userId := userId, text := text,
                         inBatch := hasBatchId, isAudioGenerated := false, audioUrl := none }
    let st1 : St := { st with summaries := st.summaries ++ [s], nextId := st.nextId + 1 }
    let st2 := if hasBatchId then checkBatchCompletionF incFails st1 else st1
    Except.ok (st2, s)

/-- WebhookController.handleSummaryWebhook (part_004 lines 15-25): the
synchronous ingress endpoint; a thrown error becomes an HTTP 500
response, success an HTTP 200 with the new document. -/
def handleSummaryWebhook (createFails incFails : Bool) (text userId : String)
    (hasBatchId : Bool) (st : St) : St × Nat :=
  match saveSummaryE createFails incFails text userId hasBatchId st with
  | Except.ok (st', _) => (st', 200)
  | Except.error _ => (st, 500)

/-- A fresh pending batch expecting `n` units, timing out at instant
`t`, as created by SummarizerService.createBatchTracker. -/
def freshBatch (n t : Nat) : Batch :=
  { expectedCount := n, receivedCount := 0, status := Status.pending, timeoutAt := t,
    halfCompletedAt := false, completedAt := false, audioRequestedAt := false,
    audioCompletedAt := false, audioFailedAt := false, audioUrl := none, failureReason := none }

/-- The state right after batch creation: the tracker document exists,
no unit has arrived, nothing has been dispatched. -/
def initSt (n t : Nat) : St :=
  { batch := some (freshBatch n t), summaries := [], nextId := 0, dispatchLog := [],
    edges := [], mixes := 0 }

theorem batchUpdate_none {c : Batch → Bool} {f : Batch → Batch} {st : St}
    (hb : st.batch = none) : batchUpdate c f st = (st, false) := by
  unfold batchUpdate
  rw [hb]

theorem batchUpdate_miss {c : Batch → Bool} {f : Batch → Batch} {st : St} {b : Batch}
    (hb : st.batch = some b) (hc : c b = false) : batchUpdate c f st = (st, false) := by
  unfold batchUpdate
  rw [hb]
  simp [hc]

theorem batchUpdate_match {c : Batch → Bool} {f : Batch → Batch} {st : St} {b : Batch}
    (hb : st.batch = some b) (hc : c b = true) :
    batchUpdate c f st =
      ({ st with batch := some (f b), edges := if (f b).status ≠ b.status then st.edges ++ [(b.status, (f b).status)] else st.edges }, true) := by
  unfold batchUpdate
  rw [hb]
  simp [hc]

theorem triggerAudioGeneration_parts (st : St) :
    (triggerAudioGeneration st).batch = st.batch ∧
    (triggerAudioGeneration st).edges = st.edges ∧
    (triggerAudioGeneration st).summaries = st.summaries ∧
    (triggerAudioGeneration st).nextId = st.nextId ∧
    (triggerAudioGeneration st).mixes = st.mixes := by
  unfold triggerAudioGeneration
  dsimp only
  repeat' split
  all_goals exact ⟨rfl, rfl, rfl, rfl, rfl⟩

/-- C7: a dispatcher call on a batch whose status is already
`audio_requested`, `audio_complete` or `audio_failed` logs and returns:
the state is entirely unchanged — no downstream request is recorded in
the dispatch log and no batch or unit record is modified. -/
theorem c7_dispatcher_idempotency_guard (st : St) (b : Batch)
    (hb : st.batch = some b)
    (hs : b.status = Status.audioRequested ∨ b.status = Status.audioComplete ∨
          b.status = Status.audioFailed) :
    triggerAudioGeneration st = st := by
  unfold triggerAudioGeneration
  rcases hs with h | h | h <;> simp [hb, h]

def stC7 : St := { initSt 4 0 with batch := some { freshBatch 4 0 with status := Status.audioRequested } }

theorem c7_witness : triggerAudioGeneration stC7 = stC7 :=
  c7_dispatcher_idempotency_guard stC7 { freshBatch 4 0 with status := Status.audioRequested }
    rfl (Or.inl rfl)

/-- The batch document produced by the unconditional audio-failure
write with error message `m`. -/
def afterFailureWrite (m : String) (b : Batch) : Batch :=
  { b with status := Status.audioFailed, audioFailedAt := true, failureReason := some m }

/-- C8: the audio-failure handler unconditionally sets the batch to
`audio_failed`, recording `audioFailedAt` and `failureReason` equal to
the reported error message, from any current status (terminal ones
included); a repeated failure report overwrites the reason with the
later message (last-writer-wins, no guard). -/
theorem c8_audio_failure_unconditional (st : St) (b : Batch) (m1 u1 m2 u2 : String)
    (hb : st.batch = some b) :
    (handleAudioGenerationFailure m1 u1 st).batch = some (afterFailureWrite m1 b) ∧
    (handleAudioGenerationFailure m2 u2 (handleAudioGenerationFailure m1 u1 st)).batch =
      some (afterFailureWrite m2 b) := by
  unfold handleAudioGenerationFailure afterFailureWrite
  rw [batchUpdate_match hb rfl]
  refine ⟨rfl, ?_⟩
  rw [batchUpdate_match (b := afterFailureWrite m1 b) rfl rfl]
  rfl

theorem c8_witness :
    (handleAudioGenerationFailure "boom" "u" stC7).batch =
      some (afterFailureWrite "boom" { freshBatch 4 0 with status := Status.audioRequested }) ∧
    (handleAudioGenerationFailure "late" "v" (handleAudioGenerationFailure "boom" "u" stC7)).batch =
      some (afterFailureWrite "late" { freshBatch 4 0 with status := Status.audioRequested }) :=
  c8_audio_failure_unconditional stC7 _ "boom" "u" "late" "v" rfl

/-- The unit document created from a "unit result arrived" event. -/
def newSummaryDoc (fresh : Nat) (t u : String) (hasBatchId : Bool) : Summary :=
  { sid := fresh, userId := u, text := t, inBatch := hasBatchId, isAudioGenerated := false, audioUrl := none }

/-- C10: a "unit result arrived" event whose batch id matches no batch
document still persists the unit and returns it successfully (the
counter update matches nothing, the evaluator logs and returns, no
error reaches the caller), and no batch state, dispatch or status edge
is produced. -/
theorem c10_unknown_batch_unit_persisted (st : St) (t u : String)
    (hb : st.batch = none) :
    saveSummaryE false false t u true st =
      Except.ok ({ st with summaries := st.summaries ++ [newSummaryDoc st.nextId t u true], nextId := st.nextId + 1 }, newSummaryDoc st.nextId t u true) := by
  unfold saveSummaryE checkBatchCompletionF checkBatchCompletion newSummaryDoc
  simp [hb]

def stC10 : St := { initSt 4 0 with batch := none }

theorem c10_witness :
    saveSummaryE false false "txt" "u" true stC10 =
      Except.ok ({ stC10 with summaries := [newSummaryDoc 0 "txt" "u" true], nextId := 1 }, newSummaryDoc 0 "txt" "u" true) := by
  have h := c10_unknown_batch_unit_persisted stC10 "txt" "u" rfl
  exact h

/-- C9 (amended): on the synchronous "unit result arrived" ingress
request, only a failure of the unit insert itself (`AiSummaries.create`)
propagates to the webhook caller as a failed (500) response; a
persistence or query failure inside the completion evaluator
(`checkBatchCompletion`, including the `receivedCount` increment) is
caught there, logged and swallowed, and the request still returns a
success (200) response. -/
theorem c9_ingress_error_propagation (createFails incFails : Bool) (t u : String)
    (hasBatchId : Bool) (st : St) :
    (handleSummaryWebhook createFails incFails t u hasBatchId st).2 =
      if createFails then 500 else 200 := by
  unfold handleSummaryWebhook saveSummaryE
  cases createFails <;> simp

/-- C9 counterexample: a persistence failure occurring while handling
the synchronous ingress request — the `receivedCount` increment inside
the completion evaluator throws — is NOT propagated: the webhook caller
receives a success (200) response and the batch counter stays
untouched, contradicting the claim that such failures surface as a
failed response. -/
theorem c9_counterexample :
    (handleSummaryWebhook false true "txt" "u" true (initSt 4 0)).2 = 200 ∧
    (handleSummaryWebhook false true "txt" "u" true (initSt 4 0)).1.batch = (initSt 4 0).batch := by
  constructor <;> rfl

/-- The C2 scenario: a fresh pending batch expecting 4 units receives
successive "unit result arrived" events (event `i` carries user `ui`). -/
def c2run : Nat → St
  | 0 => initSt 4 0
  | n + 1 => unitArrived (toString (n + 1)) (String.append "u" (toString (n + 1))) true (c2run n)

/-- C2 (amended): a pending batch with `expectedCount = 4` and no prior
units: after two "unit result arrived" events the batch has passed
`pending → partial_complete` and (having dispatched one pass with the
two current units) sits at `audio_requested`, not at
`partial_complete`; the 3rd and 4th events increment the counter only —
the dispatcher is not invoked again and the batch never transitions to
`complete`, because the 100% branch requires status
`pending`/`partial_complete` while the status is already
`audio_requested`. -/
theorem c2_amended_four_event_run :
    (c2run 2).batch.map (fun b => b.status) = some Status.audioRequested ∧
    (c2run 2).dispatchLog = [[0, 1]] ∧
    (c2run 2).edges = [(Status.pending, Status.halfComplete), (Status.halfComplete, Status.audioRequested)] ∧
    (c2run 4).batch.map (fun b => b.status) = some Status.audioRequested ∧
    (c2run 4).dispatchLog = [[0, 1]] ∧
    (c2run 4).edges = (c2run 2).edges ∧
    (c2run 4).batch.map (fun b => b.receivedCount) = some 4 := by
  refine ⟨rfl, rfl, rfl, rfl, rfl, rfl, rfl⟩

/-- C2 counterexample: with `expectedCount = 4`, after two "unit result
arrived" events the batch status is `audio_requested`, not the claimed
`partial_complete`, and after the 3rd and 4th events it is still
`audio_requested`, not the claimed `complete`. -/
theorem c2_counterexample :
    (c2run 2).batch.map (fun b => b.status) ≠ some Status.halfComplete ∧
    (c2run 4).batch.map (fun b => b.status) ≠ some Status.complete := by
  constructor <;> decide

theorem batchUpdate_fst_summaries (c : Batch → Bool) (f : Batch → Batch) (st : St) :
    (batchUpdate c f st).1.summaries = st.summaries := by
  unfold batchUpdate
  rcases st.batch with _ | b
  · rfl
  · by_cases h : c b = true <;> simp [h]

theorem batchUpdate_fst_dispatchLog (c : Batch → Bool) (f : Batch → Batch) (st : St) :
    (batchUpdate c f st).1.dispatchLog = st.dispatchLog := by
  unfold batchUpdate
  rcases st.batch with _ | b
  · rfl
  · by_cases h : c b = true <;> simp [h]

theorem trigger_no_lacking (st : St) (hl : summariesLackingAudio st = []) :
    triggerAudioGeneration st = st := by
  unfold triggerAudioGeneration
  rw [hl]
  repeat' split
  all_goals simp_all

theorem trigger_sends (st : St) (b : Batch) (hb : st.batch = some b)
    (h1 : b.status ≠ Status.audioRequested) (h2 : b.status ≠ Status.audioComplete)
    (h3 : b.status ≠ Status.audioFailed) (hl : summariesLackingAudio st ≠ []) :
    triggerAudioGeneration st =
      { st with dispatchLog := st.dispatchLog ++ [(summariesLackingAudio st).map (fun s => s.sid)] } := by
  unfold triggerAudioGeneration
  rw [hb]
  simp [h1, h2, h3, List.isEmpty_iff, hl]

theorem setAudioRequested_spec (st : St) (b : Batch) (hb : st.batch = some b) :
    setAudioRequested st =
      { st with batch := some { b with status := Status.audioRequested, audioRequestedAt := true },
                edges := if Status.audioRequested ≠ b.status then st.edges ++ [(b.status, Status.audioRequested)] else st.edges } := by
  unfold setAudioRequested
  rw [batchUpdate_match hb rfl]

theorem needing_pos_iff (st : St) :
    0 < totalSummariesCount st - summariesWithAudioCount st ↔ summariesLackingAudio st ≠ [] := by
  unfold totalSummariesCount summariesWithAudioCount summariesLackingAudio
  rw [List.length_eq_length_filter_add (l := batchSummaries st) (fun s => s.isAudioGenerated)]
  constructor
  · intro h he
    rw [he] at h
    simp at h
  · intro h
    have : 0 < ((batchSummaries st).filter (fun s => !s.isAudioGenerated)).length :=
      List.length_pos.mpr h
    omega

theorem reconcile_step (st : St) (b : Batch) (n : Nat) (hb : st.batch = some b) :
    (if n ≠ b.receivedCount then (batchUpdate (fun _ => true) (fun x => { x with receivedCount := n }) st).1 else st) =
      { st with batch := some { b with receivedCount := n } } := by
  split
  · rw [batchUpdate_match hb rfl]
    simp
  · next h =>
    have hn : n = b.receivedCount := not_ne_iff.mp h
    subst hn
    have hbr : { b with receivedCount := b.receivedCount } = b := rfl
    rw [hbr, ← hb]

theorem handleTimeoutBatch_pending_dispatch (st : St) (b : Batch)
    (hb : st.batch = some b) (hp : b.status = Status.pending)
    (hL : summariesLackingAudio st ≠ []) :
    handleTimeoutBatch b st =
      { st with batch := some { b with receivedCount := totalSummariesCount st, status := Status.audioRequested, completedAt := true, audioRequestedAt := true },
                dispatchLog := st.dispatchLog ++ [(summariesLackingAudio st).map (fun s => s.sid)],
                edges := st.edges ++ [(Status.pending, Status.complete), (Status.complete, Status.audioRequested)] } := by
  have hneed : 0 < totalSummariesCount st - summariesWithAudioCount st := (needing_pos_iff st).mpr hL
  have hT : 0 < totalSummariesCount st := by omega
  unfold handleTimeoutBatch
  rw [hp]
  simp only [beq_self_eq_true, Bool.true_or, Bool.not_true, Bool.false_eq_true, if_false, if_true]
  rw [reconcile_step st b (totalSummariesCount st) hb]
  rw [if_pos hT]
  rw [batchUpdate_match (b := { b with receivedCount := totalSummariesCount st }) rfl (by simp [hp])]
  simp only [Bool.not_true, Bool.false_eq_true, if_false]
  rw [if_pos hneed]
  rw [trigger_sends]
  case hb => rfl
  case h1 => simp
  case h2 => simp
  case h3 => simp
  case hl => exact hL
  rw [setAudioRequested_spec]
  case hb => rfl
  simp [hp, List.append_assoc, summariesLackingAudio, batchSummaries]

theorem handleTimeoutBatch_zero (st : St) (b : Batch)
    (hb : st.batch = some b) (hs : b.status = Status.pending ∨ b.status = Status.halfComplete)
    (hT : totalSummariesCount st = 0) :
    handleTimeoutBatch b st =
      { st with batch := some { b with receivedCount := 0, status := Status.failed, completedAt := true },
                edges := st.edges ++ [(b.status, Status.failed)] } := by
  unfold handleTimeoutBatch
  rcases hs with hp | hp
  all_goals
    rw [hp]
    simp only [beq_self_eq_true, Bool.true_or, Bool.or_true, Bool.not_true, Bool.false_eq_true, if_false]
    rw [reconcile_step st b (totalSummariesCount st) hb]
    rw [if_neg (by omega : ¬ totalSummariesCount st > 0)]
    rw [batchUpdate_match (b := { b with receivedCount := totalSummariesCount st }) rfl (by simp [hp])]
    simp [hp, hT]

theorem handleTimeoutBatch_pending_allAudio (st : St) (b : Batch)
    (hb : st.batch = some b) (hp : b.status = Status.pending)
    (hT : 0 < totalSummariesCount st) (hL : summariesLackingAudio st = []) :
    handleTimeoutBatch b st =
      { st with batch := some { b with receivedCount := totalSummariesCount st, status := Status.audioComplete, completedAt := true, audioCompletedAt := true },
                edges := st.edges ++ [(Status.pending, Status.complete), (Status.complete, Status.audioComplete)] } := by
  have hneed : ¬ 0 < totalSummariesCount st - summariesWithAudioCount st := by
    intro h
    exact (needing_pos_iff st).mp h hL
  unfold handleTimeoutBatch
  rw [hp]
  simp only [beq_self_eq_true, Bool.true_or, Bool.not_true, Bool.false_eq_true, if_false, if_true]
  rw [reconcile_step st b (totalSummariesCount st) hb]
  rw [if_pos hT]
  rw [batchUpdate_match (b := { b with receivedCount := totalSummariesCount st }) rfl (by simp [hp])]
  simp only [Bool.not_true, Bool.false_eq_true, if_false]
  rw [if_neg hneed]
  rw [batchUpdate_match (b := { { b with receivedCount := totalSummariesCount st } with status := Status.complete, completedAt := true }) rfl rfl]
  simp [hp, List.append_assoc]

theorem handleTimeoutBatch_half (st : St) (b : Batch)
    (hb : st.batch = some b) (hp : b.status = Status.halfComplete)
    (hT : 0 < totalSummariesCount st) :
    handleTimeoutBatch b st =
      { st with batch := some { b with receivedCount := totalSummariesCount st, status := Status.complete, completedAt := true },
                edges := st.edges ++ [(Status.halfComplete, Status.complete)] } := by
  unfold handleTimeoutBatch
  rw [hp]
  simp only [beq_self_eq_true, Bool.or_true, Bool.not_true, Bool.false_eq_true, if_false, if_true]
  rw [reconcile_step st b (totalSummariesCount st) hb]
  rw [if_pos hT]
  have hcne : (Status.halfComplete == Status.pending) = false := rfl
  rw [hcne]
  simp only [Bool.false_eq_true, if_false]
  rw [batchUpdate_match (b := { b with receivedCount := totalSummariesCount st }) rfl (by simp [hp])]
  simp [hp]

theorem processTimeoutBatches_selected (now : Nat) (st : St) (b : Batch)
    (hb : st.batch = some b) (ht : b.timeoutAt ≤ now)
    (hs : b.status = Status.pending ∨ b.status = Status.halfComplete) :
    processTimeoutBatches now st = handleTimeoutBatch b st := by
  unfold processTimeoutBatches
  simp only [hb]
  rw [if_pos ⟨ht, hs⟩]

/-- C4 (amended): for a batch with `timeoutAt ≤ now` in status
`pending`/`partial_complete`, the timeout pass reconciles
`receivedCount` to the true persisted unit count; if zero units exist
it transitions the batch to `failed`; if units exist and the batch is
`pending`, it forces the `pending → complete` transition and then
either dispatches exactly the units lacking an artifact and sets
`audio_requested`, or (when every unit already has its artifact) sets
`audio_complete` without dispatching; but if units exist and the batch
is `partial_complete`, it only marks the batch `complete` and does NOT
dispatch, even when units lack artifacts (audio is assumed already
requested at 50%). -/
theorem c4_timeout_pass_amended (st : St) (b : Batch) (now : Nat)
    (hb : st.batch = some b) (ht : b.timeoutAt ≤ now)
    (hs : b.status = Status.pending ∨ b.status = Status.halfComplete) :
    (totalSummariesCount st = 0 →
      processTimeoutBatches now st =
        { st with batch := some { b with receivedCount := 0, status := Status.failed, completedAt := true },
                  edges := st.edges ++ [(b.status, Status.failed)] }) ∧
    (b.status = Status.pending → summariesLackingAudio st ≠ [] →
      processTimeoutBatches now st =
        { st with batch := some { b with receivedCount := totalSummariesCount st, status := Status.audioRequested, completedAt := true, audioRequestedAt := true },
                  dispatchLog := st.dispatchLog ++ [(summariesLackingAudio st).map (fun s => s.sid)],
                  edges := st.edges ++ [(Status.pending, Status.complete), (Status.complete, Status.audioRequested)] }) ∧
    (b.status = Status.pending → 0 < totalSummariesCount st → summariesLackingAudio st = [] →
      processTimeoutBatches now st =
        { st with batch := some { b with receivedCount := totalSummariesCount st, status := Status.audioComplete, completedAt := true, audioCompletedAt := true },
                  edges := st.edges ++ [(Status.pending, Status.complete), (Status.complete, Status.audioComplete)] }) ∧
    (b.status = Status.halfComplete → 0 < totalSummariesCount st →
      processTimeoutBatches now st =
        { st with batch := some { b with receivedCount := totalSummariesCount st, status := Status.complete, completedAt := true },
                  edges := st.edges ++ [(Status.halfComplete, Status.complete)] }) := by
  rw [processTimeoutBatches_selected now st b hb ht hs]
  refine ⟨?_, ?_, ?_, ?_⟩
  · intro hT
    exact handleTimeoutBatch_zero st b hb hs hT
  · intro hp hL
    exact handleTimeoutBatch_pending_dispatch st b hb hp hL
  · intro hp hT hL
    exact handleTimeoutBatch_pending_allAudio st b hb hp hT hL
  · intro hp hT
    exact handleTimeoutBatch_half st b hb hp hT

/-- A timed-out `partial_complete` batch holding one unit that still
lacks its artifact. -/
def stC4 : St :=
  { batch := some { freshBatch 4 0 with status := Status.halfComplete, receivedCount := 1 },
    summaries := [{ sid := 0, userId := "u", text := "t", inBatch := true, isAudioGenerated := false, audioUrl := none }],
    nextId := 1, dispatchLog := [], edges := [], mixes := 0 }

/-- C4 counterexample: a timed-out `partial_complete` batch with one
persisted unit lacking its artifact is only marked `complete` by the
timeout pass — no dispatch happens, contradicting the claim that the
pass "dispatches exactly the units lacking an artifact" for every
timed-out pending/partial_complete batch with units. -/
theorem c4_counterexample :
    summariesLackingAudio stC4 ≠ [] ∧
    (processTimeoutBatches 1 stC4).dispatchLog = [] ∧
    (processTimeoutBatches 1 stC4).batch.map (fun b => b.status) = some Status.complete := by
  refine ⟨by decide, by decide, by decide⟩

/-- A timed-out `pending` batch holding one unit lacking its artifact. -/
def stC4w : St :=
  { batch := some (freshBatch 4 9),
    summaries := [{ sid := 0, userId := "u", text := "t", inBatch := true, isAudioGenerated := false, audioUrl := none }],
    nextId := 1, dispatchLog := [], edges := [], mixes := 0 }

theorem c4_witness :
    processTimeoutBatches 9 stC4w =
      { stC4w with batch := some { freshBatch 4 9 with receivedCount := totalSummariesCount stC4w, status := Status.audioRequested, completedAt := true, audioRequestedAt := true },
                   dispatchLog := stC4w.dispatchLog ++ [(summariesLackingAudio stC4w).map (fun s => s.sid)],
                   edges := stC4w.edges ++ [(Status.pending, Status.complete), (Status.complete, Status.audioRequested)] } :=
  (c4_timeout_pass_amended stC4w (freshBatch 4 9) 9 rfl (by decide) (Or.inl rfl)).2.1 rfl (by decide)

theorem batchUpdate_fst_rcmap (c : Batch → Bool) (f : Batch → Batch)
    (hf : ∀ x, (f x).receivedCount = x.receivedCount) (st : St) :
    (batchUpdate c f st).1.batch.map (fun x => x.receivedCount) =
      st.batch.map (fun x => x.receivedCount) := by
  cases hb : st.batch with
  | none => rw [batchUpdate_none hb, hb]
  | some b =>
    by_cases h : c b = true
    · rw [batchUpdate_match hb h]
      simp [hb, hf]
    · rw [batchUpdate_miss hb (Bool.not_eq_true _ ▸ h), hb]

theorem setAudioRequested_summaries (st : St) :
    (setAudioRequested st).summaries = st.summaries :=
  batchUpdate_fst_summaries _ _ _

theorem setAudioRequested_rcmap (st : St) :
    (setAudioRequested st).batch.map (fun x => x.receivedCount) =
      st.batch.map (fun x => x.receivedCount) := by
  apply batchUpdate_fst_rcmap
  intro x
  rfl

theorem halfCondUpdate_fst_summaries (st : St) :
    (halfCondUpdate st).1.summaries = st.summaries :=
  batchUpdate_fst_summaries _ _ _

theorem halfCondUpdate_fst_rcmap (st : St) :
    (halfCondUpdate st).1.batch.map (fun x => x.receivedCount) =
      st.batch.map (fun x => x.receivedCount) := by
  apply batchUpdate_fst_rcmap
  intro x
  rfl

theorem handleHalfCompletion_summaries (st : St) :
    (handleHalfCompletion st).summaries = st.summaries := by
  unfold handleHalfCompletion
  dsimp only
  split
  · rw [setAudioRequested_summaries, (triggerAudioGeneration_parts _).2.2.1,
      halfCondUpdate_fst_summaries]
  · exact halfCondUpdate_fst_summaries st

theorem handleHalfCompletion_rcmap (st : St) :
    (handleHalfCompletion st).batch.map (fun x => x.receivedCount) =
      st.batch.map (fun x => x.receivedCount) := by
  unfold handleHalfCompletion
  dsimp only
  split
  · rw [setAudioRequested_rcmap, (triggerAudioGeneration_parts _).1, halfCondUpdate_fst_rcmap]
  · exact halfCondUpdate_fst_rcmap st

theorem handleFullCompletion_summaries (snap : Batch) (st : St) :
    (handleFullCompletion snap st).summaries = st.summaries := by
  unfold handleFullCompletion
  dsimp only
  split
  · exact batchUpdate_fst_summaries _ _ _
  · split
    · rw [setAudioRequested_summaries, (triggerAudioGeneration_parts _).2.2.1]
      exact batchUpdate_fst_summaries _ _ _
    · exact batchUpdate_fst_summaries _ _ _

theorem handleFullCompletion_rcmap (snap : Batch) (st : St) :
    (handleFullCompletion snap st).batch.map (fun x => x.receivedCount) =
      st.batch.map (fun x => x.receivedCount) := by
  unfold handleFullCompletion
  dsimp only
  split
  · apply batchUpdate_fst_rcmap
    intro x
    rfl
  · split
    · rw [setAudioRequested_rcmap, (triggerAudioGeneration_parts _).1]
      apply batchUpdate_fst_rcmap
      intro x
      rfl
    · apply batchUpdate_fst_rcmap
      intro x
      rfl

theorem checkBatchAudioCompletion_summaries (st : St) :
    (checkBatchAudioCompletion st).summaries = st.summaries := by
  unfold checkBatchAudioCompletion
  cases hb : st.batch with
  | none => simp [hb]
  | some b =>
    simp only [hb]
    split
    · exact batchUpdate_fst_summaries _ _ _
    · rfl

theorem checkBatchAudioCompletion_rcmap (st : St) :
    (checkBatchAudioCompletion st).batch.map (fun x => x.receivedCount) =
      st.batch.map (fun x => x.receivedCount) := by
  unfold checkBatchAudioCompletion
  cases hb : st.batch with
  | none => simp [hb]
  | some b =>
    simp only [hb]
    split
    · rw [← hb]
      apply batchUpdate_fst_rcmap
      intro x
      rfl
    · rw [hb]

theorem checkBatchCompletion_summaries (st : St) :
    (checkBatchCompletion st).summaries = st.summaries := by
  unfold checkBatchCompletion
  cases hb : st.batch with
  | none => rfl
  | some b =>
    simp only [hb]
    split
    · rw [checkBatchAudioCompletion_summaries]
      split
      · rw [handleFullCompletion_summaries]
        split
        · rw [handleHalfCompletion_summaries]
        · rfl
      · split
        · rw [handleHalfCompletion_summaries]
        · rfl
    · split
      · rw [handleFullCompletion_summaries]
        split
        · rw [handleHalfCompletion_summaries]
        · rfl
      · split
        · rw [handleHalfCompletion_summaries]
        · rfl

theorem checkBatchCompletion_rcmap (st : St) :
    (checkBatchCompletion st).batch.map (fun x => x.receivedCount) =
      st.batch.map (fun x => x.receivedCount + 1) := by
  unfold checkBatchCompletion
  cases hb : st.batch with
  | none => rw [hb]; rfl
  | some b =>
    simp only [hb]
    repeat' split
    all_goals try simp only [checkBatchAudioCompletion_rcmap, handleFullCompletion_rcmap,
      handleHalfCompletion_rcmap]
    all_goals rfl

/-- The batch counter agrees with the true persisted unit count
(`receivedCount = countDocuments({batchId})`). This is the relation the
sweep reconciliation re-establishes and the claim calls "receivedCount
equal to the true count of persisted units". -/
def consistentCounter (st : St) : Prop :=
  st.batch.map (fun x => x.receivedCount) = some (totalSummariesCount st)

theorem totalSummariesCount_congr {x y : St} (h : x.summaries = y.summaries) :
    totalSummariesCount x = totalSummariesCount y := by
  unfold totalSummariesCount batchSummaries
  rw [h]

theorem unitArrived_consistent (t u : String) (st : St) (hc : consistentCounter st) :
    consistentCounter (unitArrived t u true st) := by
  unfold consistentCounter at hc ⊢
  cases hbm : st.batch with
  | none => rw [hbm] at hc; simp at hc
  | some b =>
    rw [hbm] at hc
    simp only [Option.map_some', Option.some.injEq] at hc
    unfold unitArrived saveSummary
    dsimp only
    rw [if_pos rfl]
    rw [checkBatchCompletion_rcmap,
      totalSummariesCount_congr (checkBatchCompletion_summaries _)]
    simp only [hbm]
    unfold totalSummariesCount batchSummaries
    simp [List.filter_append, hc]
    rfl

theorem timeout_consistent (now : Nat) (st : St) (hc : consistentCounter st) :
    consistentCounter (processTimeoutBatches now st) := by
  unfold consistentCounter at hc ⊢
  cases hbm : st.batch with
  | none => rw [hbm] at hc; simp at hc
  | some b =>
    by_cases hsel : b.timeoutAt ≤ now ∧ (b.status = Status.pending ∨ b.status = Status.halfComplete)
    · rw [processTimeoutBatches_selected now st b hbm hsel.1 hsel.2]
      by_cases hT : totalSummariesCount st = 0
      · rw [handleTimeoutBatch_zero st b hbm hsel.2 hT]
        have h0 : (st.summaries.filter (fun x => x.inBatch)).length = 0 := hT
        simp [totalSummariesCount, batchSummaries, h0]
      · rcases hsel.2 with hp | hp
        · by_cases hL : summariesLackingAudio st = []
          · rw [handleTimeoutBatch_pending_allAudio st b hbm hp (by omega) hL]
            simp [totalSummariesCount, batchSummaries]
          · rw [handleTimeoutBatch_pending_dispatch st b hbm hp hL]
            simp [totalSummariesCount, batchSummaries]
        · rw [handleTimeoutBatch_half st b hbm hp (by omega)]
          simp [totalSummariesCount, batchSummaries]
    · unfold processTimeoutBatches
      simp only [hbm]
      rw [if_neg hsel]
      rw [hbm] at hc
      rw [hbm]
      exact hc

/-- C6: starting from any state whose batch counter agrees with the
true persisted unit count, processing the same "unit result arrived"
event twice for the same user and batch and then running the
timeout-sweep reconciliation leaves `receivedCount` equal to the true
count of persisted units. (Each duplicate event both increments the
counter and persists one more unit document — the summaries store has
no uniqueness constraint on `(batchId, userId)` — so counter and ground
truth never diverge, and the sweep, when it selects the batch,
re-reads the true count and overwrites the counter with it.) -/
theorem c6_duplicate_event_reconciliation (st : St) (t1 t2 u : String) (now : Nat)
    (hc : consistentCounter st) :
    consistentCounter (processTimeoutBatches now (unitArrived t2 u true (unitArrived t1 u true st))) :=
  timeout_consistent now _ (unitArrived_consistent t2 u _ (unitArrived_consistent t1 u _ hc))

theorem c6_witness :
    consistentCounter (processTimeoutBatches 5 (unitArrived "s" "u" true (unitArrived "s" "u" true (initSt 4 0)))) :=
  c6_duplicate_event_reconciliation (initSt 4 0) "s" "s" "u" 5 rfl

theorem recoverFailedBatch_dispatch (st : St) (b : Batch) (n : Nat)
    (hb : st.batch = some b) (hf : b.status = Status.failed)
    (hneed : 0 < n - summariesWithAudioCount st) (hL : summariesLackingAudio st ≠ []) :
    recoverFailedBatch b n st =
      { st with batch := some { b with receivedCount := n, status := Status.audioRequested, completedAt := true, audioRequestedAt := true },
                dispatchLog := st.dispatchLog ++ [(summariesLackingAudio st).map (fun s => s.sid)],
                edges := st.edges ++ [(Status.failed, Status.complete), (Status.complete, Status.audioRequested)] } := by
  unfold recoverFailedBatch
  rw [if_neg (by simp [hf])]
  rw [batchUpdate_match hb (by simp [hf])]
  simp only [Bool.not_true, Bool.false_eq_true, if_false]
  rw [if_pos hneed]
  rw [trigger_sends]
  case hb => rfl
  case h1 => simp
  case h2 => simp
  case h3 => simp
  case hl => exact hL
  rw [setAudioRequested_spec]
  case hb => rfl
  simp [hf, List.append_assoc, summariesLackingAudio, batchSummaries]

theorem recoverFailedBatch_allAudio (st : St) (b : Batch) (n : Nat)
    (hb : st.batch = some b) (hf : b.status = Status.failed)
    (hneed : ¬ 0 < n - summariesWithAudioCount st) :
    recoverFailedBatch b n st =
      { st with batch := some { b with receivedCount := n, status := Status.audioComplete, completedAt := true, audioCompletedAt := true },
                edges := st.edges ++ [(Status.failed, Status.complete), (Status.complete, Status.audioComplete)] } := by
  unfold recoverFailedBatch
  rw [if_neg (by simp [hf])]
  rw [batchUpdate_match hb (by simp [hf])]
  simp only [Bool.not_true, Bool.false_eq_true, if_false]
  rw [if_neg hneed]
  rw [batchUpdate_match (b := { b with receivedCount := n, status := Status.complete, completedAt := true }) rfl rfl]
  simp [hf, List.append_assoc]

theorem processOrphanedSummaries_selected (st : St) (b : Batch)
    (hb : st.batch = some b) (hf : b.status = Status.failed) (hrc : b.receivedCount = 0)
    (hT : 0 < totalSummariesCount st) :
    processOrphanedSummaries st = recoverFailedBatch b (totalSummariesCount st) st := by
  unfold processOrphanedSummaries
  simp only [hb]
  rw [if_pos ⟨hf, hrc⟩]
  rw [if_pos hT]

/-- Statuses from which the engine can never reach `failed` again:
every write of `failed` is conditional on `pending`/`partial_complete`,
and no operation ever writes `pending` or `partial_complete` back from
these four. -/
def goodStatus (s : Status) : Prop :=
  s = Status.complete ∨ s = Status.audioRequested ∨ s = Status.audioComplete ∨
    s = Status.audioFailed

theorem checkBatchAudioCompletion_status (st : St) (b : Batch) (hb : st.batch = some b) :
    ∃ x, (checkBatchAudioCompletion st).batch = some x ∧
      (x.status = b.status ∨ x.status = Status.audioComplete) := by
  unfold checkBatchAudioCompletion
  simp only [hb]
  split
  · by_cases h : (decide (b.status ≠ Status.audioComplete)) = true
    · rw [batchUpdate_match hb h]
      exact ⟨_, rfl, Or.inr rfl⟩
    · rw [batchUpdate_miss hb (Bool.not_eq_true _ ▸ h)]
      exact ⟨b, hb, Or.inl rfl⟩
  · exact ⟨b, hb, Or.inl rfl⟩

theorem checkBatchCompletion_good (st : St) (b : Batch) (hb : st.batch = some b)
    (hg : goodStatus b.status) :
    ∃ x, (checkBatchCompletion st).batch = some x ∧ goodStatus x.status := by
  have hnp : b.status ≠ Status.pending := by rcases hg with h | h | h | h <;> simp [h]
  have hnh : b.status ≠ Status.halfComplete := by rcases hg with h | h | h | h <;> simp [h]
  unfold checkBatchCompletion
  simp only [hb]
  dsimp only
  rw [if_neg (show ¬(100 * (b.receivedCount + 1) ≥ 50 * b.expectedCount ∧ b.status = Status.pending) from fun hcon => hnp hcon.2)]
  rw [if_neg (show ¬(b.receivedCount + 1 ≥ b.expectedCount ∧ (b.status = Status.pending ∨ b.status = Status.halfComplete)) from fun hcon => hcon.2.elim hnp hnh)]
  split
  · obtain ⟨x, hx, hsx⟩ := checkBatchAudioCompletion_status
      { st with batch := some { b with receivedCount := b.receivedCount + 1 } }
      { b with receivedCount := b.receivedCount + 1 } rfl
    refine ⟨x, hx, ?_⟩
    rcases hsx with h | h
    · rw [h]
      exact hg
    · exact Or.inr (Or.inr (Or.inl h))
  · exact ⟨{ b with receivedCount := b.receivedCount + 1 }, rfl, hg⟩

theorem opApply_good (o : Op) (st : St) (b : Batch) (hb : st.batch = some b)
    (hg : goodStatus b.status) :
    ∃ x, (Op.apply o st).batch = some x ∧ goodStatus x.status := by
  have hnp : b.status ≠ Status.pending := by rcases hg with h | h | h | h <;> simp [h]
  have hnh : b.status ≠ Status.halfComplete := by rcases hg with h | h | h | h <;> simp [h]
  have hnf : b.status ≠ Status.failed := by rcases hg with h | h | h | h <;> simp [h]
  cases o with
  | unitArrivedOp t u hbi =>
    show ∃ x, (unitArrived t u hbi st).batch = some x ∧ goodStatus x.status
    unfold unitArrived saveSummary
    dsimp only
    cases hbi with
    | false => exact ⟨b, hb, hg⟩
    | true =>
      rw [if_pos rfl]
      exact checkBatchCompletion_good _ b hb hg
  | audioSuccessOp a u sid hbi =>
    show ∃ x, (handleSummaryAudioGenerationSuccess a u sid hbi st).batch = some x ∧ goodStatus x.status
    unfold handleSummaryAudioGenerationSuccess
    dsimp only
    split
    · exact ⟨b, hb, hg⟩
    · cases hbi with
      | false => exact ⟨b, hb, hg⟩
      | true =>
        rw [if_pos rfl]
        obtain ⟨x, hx, hsx⟩ := checkBatchAudioCompletion_status
          { st with summaries := st.summaries.map (fun s => if s.sid == sid && s.userId == u then { s with isAudioGenerated := true, audioUrl := some a } else s), mixes := st.mixes + 1 } b hb
        refine ⟨x, hx, ?_⟩
        rcases hsx with h | h
        · rw [h]; exact hg
        · exact Or.inr (Or.inr (Or.inl h))
  | audioSuccessLegacyOp a u =>
    show ∃ x, (handleAudioGenerationSuccess a u st).batch = some x ∧ goodStatus x.status
    unfold handleAudioGenerationSuccess
    dsimp only
    rw [batchUpdate_match]
    case hb => exact hb
    case hc => rfl
    exact ⟨_, rfl, Or.inr (Or.inr (Or.inl rfl))⟩
  | audioFailureOp e u =>
    show ∃ x, (handleAudioGenerationFailure e u st).batch = some x ∧ goodStatus x.status
    unfold handleAudioGenerationFailure
    rw [batchUpdate_match (b := b) hb rfl]
    exact ⟨_, rfl, Or.inr (Or.inr (Or.inr rfl))⟩
  | timeoutPassOp now =>
    show ∃ x, (processTimeoutBatches now st).batch = some x ∧ goodStatus x.status
    unfold processTimeoutBatches
    simp only [hb]
    rw [if_neg (fun hcon => hcon.2.elim hnp hnh)]
    exact ⟨b, hb, hg⟩
  | orphanPassOp =>
    show ∃ x, (processOrphanedSummaries st).batch = some x ∧ goodStatus x.status
    unfold processOrphanedSummaries
    simp only [hb]
    rw [if_neg (fun hcon => hnf hcon.1)]
    exact ⟨b, hb, hg⟩
  | halfCompletionPassOp =>
    show ∃ x, (checkHalfCompletionBatches st).batch = some x ∧ goodStatus x.status
    unfold checkHalfCompletionBatches
    simp only [hb]
    rw [if_neg (fun hcon => hnp hcon.1)]
    exact ⟨b, hb, hg⟩

theorem applyOps_good (ops : List Op) (st : St) (b : Batch) (hb : st.batch = some b)
    (hg : goodStatus b.status) :
    ∃ x, (applyOps ops st).batch = some x ∧ goodStatus x.status := by
  induction ops generalizing st b with
  | nil => exact ⟨b, hb, hg⟩
  | cons o rest ih =>
    obtain ⟨x, hx, hgx⟩ := opApply_good o st b hb hg
    exact ih (Op.apply o st) x hx hgx

/-- C5: for a batch in status `failed` with `receivedCount = 0` for
which persisted units now exist, the recovery pass performs the
`failed → complete` conditional transition, reconciles `receivedCount`
to the true unit count, and then: when some unit lacks its artifact it
dispatches exactly the units lacking artifacts and sets
`audio_requested`; when every unit already carries its artifact it sets
`audio_complete` with no dispatch; and afterwards no sequence of engine
operations (ingress events, audio success/failure handlers, sweep
passes) ever returns the batch to status `failed`. -/
theorem c5_orphan_recovery_never_failed_again (st : St) (b : Batch)
    (hb : st.batch = some b) (hf : b.status = Status.failed) (hrc : b.receivedCount = 0)
    (hT : 0 < totalSummariesCount st) :
    (summariesLackingAudio st ≠ [] →
      processOrphanedSummaries st =
        { st with batch := some { b with receivedCount := totalSummariesCount st, status := Status.audioRequested, completedAt := true, audioRequestedAt := true },
                  dispatchLog := st.dispatchLog ++ [(summariesLackingAudio st).map (fun s => s.sid)],
                  edges := st.edges ++ [(Status.failed, Status.complete), (Status.complete, Status.audioRequested)] }) ∧
    (summariesLackingAudio st = [] →
      processOrphanedSummaries st =
        { st with batch := some { b with receivedCount := totalSummariesCount st, status := Status.audioComplete, completedAt := true, audioCompletedAt := true },
                  edges := st.edges ++ [(Status.failed, Status.complete), (Status.complete, Status.audioComplete)] }) ∧
    (∀ ops : List Op,
      (applyOps ops (processOrphanedSummaries st)).batch.map (fun x => x.status) ≠
        some Status.failed) := by
  rw [processOrphanedSummaries_selected st b hb hf hrc hT]
  refine ⟨?_, ?_, ?_⟩
  · intro hL
    exact recoverFailedBatch_dispatch st b (totalSummariesCount st) hb hf
      ((needing_pos_iff st).mpr hL) hL
  · intro hL
    exact recoverFailedBatch_allAudio st b (totalSummariesCount st) hb hf
      (fun h => (needing_pos_iff st).mp h hL)
  · intro ops
    by_cases hL : summariesLackingAudio st = []
    · rw [recoverFailedBatch_allAudio st b (totalSummariesCount st) hb hf
        (fun h => (needing_pos_iff st).mp h hL)]
      obtain ⟨x, hx, hgx⟩ := applyOps_good ops
        { st with batch := some { b with receivedCount := totalSummariesCount st, status := Status.audioComplete, completedAt := true, audioCompletedAt := true }, edges := st.edges ++ [(Status.failed, Status.complete), (Status.complete, Status.audioComplete)] }
        { b with receivedCount := totalSummariesCount st, status := Status.audioComplete, completedAt := true, audioCompletedAt := true } rfl
        (Or.inr (Or.inr (Or.inl rfl)))
      rw [hx]
      rcases hgx with h | h | h | h <;> simp [h]
    · rw [recoverFailedBatch_dispatch st b (totalSummariesCount st) hb hf
        ((needing_pos_iff st).mpr hL) hL]
      obtain ⟨x, hx, hgx⟩ := applyOps_good ops
        { st with batch := some { b with receivedCount := totalSummariesCount st, status := Status.audioRequested, completedAt := true, audioRequestedAt := true }, dispatchLog := st.dispatchLog ++ [(summariesLackingAudio st).map (fun s => s.sid)], edges := st.edges ++ [(Status.failed, Status.complete), (Status.complete, Status.audioRequested)] }
        { b with receivedCount := totalSummariesCount st, status := Status.audioRequested, completedAt := true, audioRequestedAt := true } rfl
        (Or.inr (Or.inl rfl))
      rw [hx]
      rcases hgx with h | h | h | h <;> simp [h]

/-- A failed batch with `receivedCount = 0` for which one unit (without
its artifact) has since been persisted. -/
def stC5 : St :=
  { batch := some { freshBatch 4 0 with status := Status.failed },
    summaries := [{ sid := 0, userId := "u", text := "t", inBatch := true, isAudioGenerated := false, audioUrl := none }],
    nextId := 1, dispatchLog := [], edges := [], mixes := 0 }

theorem c5_witness :
    processOrphanedSummaries stC5 =
      { stC5 with batch := some { { freshBatch 4 0 with status := Status.failed } with receivedCount := totalSummariesCount stC5, status := Status.audioRequested, completedAt := true, audioRequestedAt := true },
                  dispatchLog := stC5.dispatchLog ++ [(summariesLackingAudio stC5).map (fun s => s.sid)],
                  edges := stC5.edges ++ [(Status.failed, Status.complete), (Status.complete, Status.audioRequested)] } ∧
    (applyOps [Op.audioFailureOp "boom" "v", Op.timeoutPassOp 99] (processOrphanedSummaries stC5)).batch.map (fun x => x.status) ≠ some Status.failed := by
  have h := c5_orphan_recovery_never_failed_again stC5
    { freshBatch 4 0 with status := Status.failed } rfl rfl rfl (by decide)
  exact ⟨h.1 (by decide), h.2.2 [Op.audioFailureOp "boom" "v", Op.timeoutPassOp 99]⟩

/-- The §4.1 transition table as the claim enumerates it (edges only):
pending→partial_complete, pending/partial_complete→complete,
complete/partial_complete→audio_requested,
audio_requested→audio_complete, non-terminal→failed, failed→complete. -/
def tableEdge : Status → Status → Bool
  | Status.pending, Status.halfComplete => true
  | Status.pending, Status.complete => true
  | Status.halfComplete, Status.complete => true
  | Status.complete, Status.audioRequested => true
  | Status.halfComplete, Status.audioRequested => true
  | Status.audioRequested, Status.audioComplete => true
  | Status.pending, Status.failed => true
  | Status.halfComplete, Status.failed => true
  | Status.complete, Status.failed => true
  | Status.audioRequested, Status.failed => true
  | Status.failed, Status.complete => true
  | _, _ => false

/-- The table extended by the two unconditional write families the code
actually performs: any status → `audio_failed` (the failure handler has
no status guard) and any status other than `audio_complete` →
`audio_complete` (the audio-completion writes only exclude
`audio_complete` itself). -/
def extEdge (s t : Status) : Bool :=
  tableEdge s t || (t == Status.audioFailed && s != Status.audioFailed) ||
    (t == Status.audioComplete && s != Status.audioComplete)

theorem halfCondUpdate_none (st : St) (hb : st.batch = none) :
    halfCondUpdate st = (st, false) :=
  batchUpdate_none hb

theorem halfCondUpdate_win (st : St) (b : Batch) (hb : st.batch = some b)
    (hp : b.status = Status.pending) :
    halfCondUpdate st =
      ({ st with batch := some { b with status := Status.halfComplete, halfCompletedAt := true },
                 edges := st.edges ++ [(Status.pending, Status.halfComplete)] }, true) := by
  unfold halfCondUpdate
  rw [batchUpdate_match hb (by simp [hp])]
  simp [hp]

theorem halfCondUpdate_lose (st : St) (b : Batch) (hb : st.batch = some b)
    (hp : b.status ≠ Status.pending) :
    halfCondUpdate st = (st, false) := by
  unfold halfCondUpdate
  exact batchUpdate_miss hb (by simp [hp])

theorem edges_dispatch_then_request (st : St) (b : Batch) (hb : st.batch = some b)
    (h1 : b.status ≠ Status.audioRequested) :
    (setAudioRequested (triggerAudioGeneration st)).edges =
      st.edges ++ [(b.status, Status.audioRequested)] := by
  have hbt : (triggerAudioGeneration st).batch = some b := by
    rw [(triggerAudioGeneration_parts st).1, hb]
  rw [setAudioRequested_spec _ b hbt]
  have h1' : Status.audioRequested ≠ b.status := fun h => h1 h.symm
  simp [(triggerAudioGeneration_parts st).2.1, h1']

theorem edges_handleHalfCompletion (st : St) :
    ∃ new, (handleHalfCompletion st).edges = st.edges ++ new ∧
      ∀ e ∈ new, extEdge e.1 e.2 = true := by
  unfold handleHalfCompletion
  dsimp only
  cases hb : st.batch with
  | none =>
    rw [halfCondUpdate_none st hb]
    exact ⟨[], by simp, by simp⟩
  | some b =>
    by_cases hp : b.status = Status.pending
    · rw [halfCondUpdate_win st b hb hp]
      dsimp only
      rw [if_pos rfl]
      rw [edges_dispatch_then_request _ { b with status := Status.halfComplete, halfCompletedAt := true } rfl (by simp)]
      refine ⟨[(Status.pending, Status.halfComplete), (Status.halfComplete, Status.audioRequested)], ?_, ?_⟩
      · simp
      · decide
    · rw [halfCondUpdate_lose st b hb hp]
      exact ⟨[], by simp, by simp⟩

theorem edges_handleFullCompletion (snap : Batch) (st : St) :
    ∃ new, (handleFullCompletion snap st).edges = st.edges ++ new ∧
      ∀ e ∈ new, extEdge e.1 e.2 = true := by
  unfold handleFullCompletion
  dsimp only
  split
  · cases hb : st.batch with
    | none =>
      rw [batchUpdate_none hb]
      exact ⟨[], by simp, by simp⟩
    | some b =>
      by_cases hh : b.status = Status.halfComplete
      · rw [batchUpdate_match hb (by simp [hh])]
        refine ⟨[(Status.halfComplete, Status.complete)], by simp [hh], by decide⟩
      · rw [batchUpdate_miss hb (by simp [hh])]
        exact ⟨[], by simp, by simp⟩
  · cases hb : st.batch with
    | none =>
      rw [batchUpdate_none hb]
      exact ⟨[], by simp, by simp⟩
    | some b =>
      by_cases hp : b.status = Status.pending
      · rw [batchUpdate_match hb (by simp [hp])]
        dsimp only
        rw [if_pos rfl]
        rw [edges_dispatch_then_request _ { b with status := Status.complete, completedAt := true } rfl (by simp)]
        refine ⟨[(Status.pending, Status.complete), (Status.complete, Status.audioRequested)], ?_, ?_⟩
        · simp [hp]
        · decide
      · rw [batchUpdate_miss hb (by simp [hp])]
        exact ⟨[], by simp, by simp⟩

theorem edges_checkBatchAudioCompletion (st : St) :
    ∃ new, (checkBatchAudioCompletion st).edges = st.edges ++ new ∧
      ∀ e ∈ new, extEdge e.1 e.2 = true := by
  unfold checkBatchAudioCompletion
  cases hb : st.batch with
  | none => exact ⟨[], by simp, by simp⟩
  | some b =>
    simp only [hb]
    split
    · by_cases hc : b.status = Status.audioComplete
      · rw [batchUpdate_miss hb (by simp [hc])]
        exact ⟨[], by simp, by simp⟩
      · rw [batchUpdate_match hb (by simp [hc])]
        refine ⟨[(b.status, Status.audioComplete)], by simp [Ne.symm hc], ?_⟩
        intro e he
        simp only [List.mem_singleton] at he
        subst he
        simp [extEdge, hc]
    · exact ⟨[], by simp, by simp⟩

theorem edges_evaluator_pipeline (p q r : Prop) [Decidable p] [Decidable q] [Decidable r]
    (snap : Batch) (u : St) :
    ∃ new,
      (if r then
          checkBatchAudioCompletion
            (if q then handleFullCompletion snap (if p then handleHalfCompletion u else u)
             else (if p then handleHalfCompletion u else u))
        else
          (if q then handleFullCompletion snap (if p then handleHalfCompletion u else u)
           else (if p then handleHalfCompletion u else u))).edges = u.edges ++ new ∧
      ∀ e ∈ new, extEdge e.1 e.2 = true := by
  obtain ⟨n1, h1, e1⟩ :
      ∃ n, (if p then handleHalfCompletion u else u).edges = u.edges ++ n ∧
        ∀ e ∈ n, extEdge e.1 e.2 = true := by
    split
    · exact edges_handleHalfCompletion u
    · exact ⟨[], by simp, by simp⟩
  obtain ⟨n2, h2, e2⟩ :
      ∃ n, (if q then handleFullCompletion snap (if p then handleHalfCompletion u else u)
             else (if p then handleHalfCompletion u else u)).edges =
          (if p then handleHalfCompletion u else u).edges ++ n ∧
        ∀ e ∈ n, extEdge e.1 e.2 = true := by
    split
    · exact edges_handleFullCompletion snap _
    · exact ⟨[], by simp, by simp⟩
  obtain ⟨n3, h3, e3⟩ :
      ∃ n, (if r then
              checkBatchAudioCompletion
                (if q then handleFullCompletion snap (if p then handleHalfCompletion u else u)
                 else (if p then handleHalfCompletion u else u))
            else
              (if q then handleFullCompletion snap (if p then handleHalfCompletion u else u)
               else (if p then handleHalfCompletion u else u))).edges =
          (if q then handleFullCompletion snap (if p then handleHalfCompletion u else u)
             else (if p then handleHalfCompletion u else u)).edges ++ n ∧
        ∀ e ∈ n, extEdge e.1 e.2 = true := by
    split
    · exact edges_checkBatchAudioCompletion _
    · exact ⟨[], by simp, by simp⟩
  refine ⟨n1 ++ n2 ++ n3, ?_, ?_⟩
  · rw [h3, h2, h1]
    simp [List.append_assoc]
  · intro e he
    rcases List.mem_append.mp he with h | h
    · rcases List.mem_append.mp h with h | h
      · exact e1 e h
      · exact e2 e h
    · exact e3 e h

theorem edges_checkBatchCompletion (st : St) :
    ∃ new, (checkBatchCompletion st).edges = st.edges ++ new ∧
      ∀ e ∈ new, extEdge e.1 e.2 = true := by
  unfold checkBatchCompletion
  cases hb : st.batch with
  | none => exact ⟨[], by simp, by simp⟩
  | some b =>
    simp only [hb]
    dsimp only
    exact edges_evaluator_pipeline _ _ _ _ _

theorem edges_triggerHalfCompletion (b : Batch) (st : St) (hb : st.batch = some b) :
    ∃ new, (triggerHalfCompletion b st).edges = st.edges ++ new ∧
      ∀ e ∈ new, extEdge e.1 e.2 = true := by
  unfold triggerHalfCompletion
  split
  · exact ⟨[], by simp, by simp⟩
  · next hp =>
    have hp' : b.status = Status.pending := not_ne_iff.mp hp
    rw [halfCondUpdate_win st b hb hp']
    dsimp only
    rw [if_neg (by simp)]
    rw [edges_dispatch_then_request _ { b with status := Status.halfComplete, halfCompletedAt := true } rfl (by simp)]
    refine ⟨[(Status.pending, Status.halfComplete), (Status.halfComplete, Status.audioRequested)], by simp, by decide⟩

/-- C1 (amended): every status change any engine operation writes to a
batch record lies in the §4.1 table extended with the two unconditional
write families the code performs: any status may move to `audio_failed`
(the failure handler's write has no status condition), and any status
other than `audio_complete` may move to `audio_complete` (the
audio-completion writes only exclude `audio_complete` itself, so e.g.
`pending → audio_complete` and `complete → audio_complete` occur). -/
theorem c1_amended_status_edges (o : Op) (st : St) :
    ∃ new, (Op.apply o st).edges = st.edges ++ new ∧
      ∀ e ∈ new, extEdge e.1 e.2 = true := by
  cases o with
  | unitArrivedOp t u hbi =>
    show ∃ new, (unitArrived t u hbi st).edges = st.edges ++ new ∧ _
    unfold unitArrived saveSummary
    dsimp only
    cases hbi with
    | false => exact ⟨[], by simp, by simp⟩
    | true =>
      rw [if_pos rfl]
      exact edges_checkBatchCompletion _
  | audioSuccessOp a u sid hbi =>
    show ∃ new, (handleSummaryAudioGenerationSuccess a u sid hbi st).edges = st.edges ++ new ∧ _
    unfold handleSummaryAudioGenerationSuccess
    dsimp only
    split
    · exact ⟨[], by simp, by simp⟩
    · cases hbi with
      | false => exact ⟨[], by simp, by simp⟩
      | true =>
        rw [if_pos rfl]
        exact edges_checkBatchAudioCompletion _
  | audioSuccessLegacyOp a u =>
    show ∃ new, (handleAudioGenerationSuccess a u st).edges = st.edges ++ new ∧ _
    unfold handleAudioGenerationSuccess
    dsimp only
    cases hb : st.batch with
    | none =>
      rw [batchUpdate_none (rfl : ({ st with batch := none, mixes := st.mixes + 1 } : St).batch = none)]
      exact ⟨[], by simp, by simp⟩
    | some b =>
      have hupd := batchUpdate_match (c := fun _ => true)
        (f := fun x => { x with status := Status.audioComplete, audioCompletedAt := true, audioUrl := some a })
        (rfl : ({ st with batch := some b, mixes := st.mixes + 1 } : St).batch = some b) rfl
      rw [hupd]
      by_cases hc : b.status = Status.audioComplete
      · refine ⟨[], ?_, by simp⟩
        simp [hc]
      · refine ⟨[(b.status, Status.audioComplete)], ?_, ?_⟩
        · simp [Ne.symm hc]
        · intro e he
          simp only [List.mem_singleton] at he
          subst he
          simp [extEdge, hc]
  | audioFailureOp e u =>
    show ∃ new, (handleAudioGenerationFailure e u st).edges = st.edges ++ new ∧ _
    unfold handleAudioGenerationFailure
    cases hb : st.batch with
    | none =>
      rw [batchUpdate_none hb]
      exact ⟨[], by simp, by simp⟩
    | some b =>
      rw [batchUpdate_match hb rfl]
      by_cases hc : b.status = Status.audioFailed
      · refine ⟨[], ?_, by simp⟩
        simp [hc]
      · refine ⟨[(b.status, Status.audioFailed)], ?_, ?_⟩
        · simp [Ne.symm hc]
        · intro x hx
          simp only [List.mem_singleton] at hx
          subst hx
          simp [extEdge, hc]
  | timeoutPassOp now =>
    show ∃ new, (processTimeoutBatches now st).edges = st.edges ++ new ∧ _
    cases hb : st.batch with
    | none =>
      unfold processTimeoutBatches
      simp only [hb]
      exact ⟨[], by simp, by simp⟩
    | some b =>
      by_cases hsel : b.timeoutAt ≤ now ∧ (b.status = Status.pending ∨ b.status = Status.halfComplete)
      · rw [processTimeoutBatches_selected now st b hb hsel.1 hsel.2]
        by_cases hT : totalSummariesCount st = 0
        · rw [handleTimeoutBatch_zero st b hb hsel.2 hT]
          refine ⟨[(b.status, Status.failed)], by simp, ?_⟩
          intro e he
          simp only [List.mem_singleton] at he
          subst he
          rcases hsel.2 with h | h <;> simp [extEdge, tableEdge, h]
        · rcases hsel.2 with hp | hp
          · by_cases hL : summariesLackingAudio st = []
            · rw [handleTimeoutBatch_pending_allAudio st b hb hp (by omega) hL]
              exact ⟨[(Status.pending, Status.complete), (Status.complete, Status.audioComplete)], by simp, by decide⟩
            · rw [handleTimeoutBatch_pending_dispatch st b hb hp hL]
              exact ⟨[(Status.pending, Status.complete), (Status.complete, Status.audioRequested)], by simp, by decide⟩
          · rw [handleTimeoutBatch_half st b hb hp (by omega)]
            exact ⟨[(Status.halfComplete, Status.complete)], by simp, by decide⟩
      · unfold processTimeoutBatches
        simp only [hb]
        rw [if_neg hsel]
        exact ⟨[], by simp, by simp⟩
  | orphanPassOp =>
    show ∃ new, (processOrphanedSummaries st).edges = st.edges ++ new ∧ _
    cases hb : st.batch with
    | none =>
      unfold processOrphanedSummaries
      simp only [hb]
      exact ⟨[], by simp, by simp⟩
    | some b =>
      by_cases hsel : b.status = Status.failed ∧ b.receivedCount = 0
      · by_cases hT : 0 < totalSummariesCount st
        · rw [processOrphanedSummaries_selected st b hb hsel.1 hsel.2 hT]
          by_cases hneed : 0 < totalSummariesCount st - summariesWithAudioCount st
          · rw [recoverFailedBatch_dispatch st b (totalSummariesCount st) hb hsel.1 hneed
              ((needing_pos_iff st).mp hneed)]
            exact ⟨[(Status.failed, Status.complete), (Status.complete, Status.audioRequested)], by simp, by decide⟩
          · rw [recoverFailedBatch_allAudio st b (totalSummariesCount st) hb hsel.1 hneed]
            exact ⟨[(Status.failed, Status.complete), (Status.complete, Status.audioComplete)], by simp, by decide⟩
        · unfold processOrphanedSummaries
          simp only [hb]
          rw [if_pos hsel]
          rw [if_neg hT]
          exact ⟨[], by simp, by simp⟩
      · unfold processOrphanedSummaries
        simp only [hb]
        rw [if_neg hsel]
        exact ⟨[], by simp, by simp⟩
  | halfCompletionPassOp =>
    show ∃ new, (checkHalfCompletionBatches st).edges = st.edges ++ new ∧ _
    cases hb : st.batch with
    | none =>
      unfold checkHalfCompletionBatches
      simp only [hb]
      exact ⟨[], by simp, by simp⟩
    | some b =>
      by_cases hsel : b.status = Status.pending ∧ b.receivedCount > 0 ∧
          100 * b.receivedCount ≥ 50 * b.expectedCount
      · unfold checkHalfCompletionBatches
        simp only [hb]
        rw [if_pos hsel]
        exact edges_triggerHalfCompletion b st hb
      · unfold checkHalfCompletionBatches
        simp only [hb]
        rw [if_neg hsel]
        exact ⟨[], by simp, by simp⟩

/-- C1 counterexample: the audio-generation-failure handler applied to
a batch in status `pending` writes the status change
`pending → audio_failed`, a transition not listed in the §4.1 table —
so the claim that the status only ever changes along the table does not
hold for the engine's operations. -/
theorem c1_counterexample :
    (Op.apply (Op.audioFailureOp "boom" "u") (initSt 4 0)).edges =
      [(Status.pending, Status.audioFailed)] ∧
    tableEdge Status.pending Status.audioFailed = false := by
  constructor <;> decide

/-- One of N concurrent Evaluator invocations racing on the
`pending → partial_complete` transition of handlePartialCompletion:
`phase` counts how many of its three steps have run (the atomic
conditional update; the dispatcher call; the `audio_requested` write),
and `won` records whether its conditional update matched. -/
structure PState where
  phase : Nat
  won : Bool
deriving DecidableEq, Repr

/-- One atomic step of an invocation against the shared store. Phase 0
executes the conditional `pending → partial_complete` update; phases 1
and 2 run the dispatcher and the `audio_requested` write only when this
invocation won its conditional update (a loser logs and returns, so its
remaining steps change nothing). -/
def pstep (p : PState) (st : St) : St × PState :=
  match p.phase with
  | 0 => ((halfCondUpdate st).1, ⟨1, (halfCondUpdate st).2⟩)
  | 1 => (if p.won then triggerAudioGeneration st else st, ⟨2, p.won⟩)
  | 2 => (if p.won then setAudioRequested st else st, ⟨3, p.won⟩)
  | _ => (st, p)

/-- Shared store plus the local state of each of the `n` invocations. -/
structure ConfigF (n : Nat) where
  st : St
  procs : Fin n → PState

/-- Interleaving semantics: any invocation with steps left executes its
next step atomically against the shared store. -/
def CStep (n : Nat) (c c' : ConfigF n) : Prop :=
  ∃ i : Fin n, (c.procs i).phase < 3 ∧
    c' = ⟨(pstep (c.procs i) c.st).1,
          Function.update c.procs i (pstep (c.procs i) c.st).2⟩

/-- Executions: reflexive-transitive closure of the interleaving step. -/
def Reaches (n : Nat) : ConfigF n → ConfigF n → Prop :=
  Relation.ReflTransGen (CStep n)

/-- Exactly one invocation has won, and it has executed `ph` steps. -/
def OneWin {n : Nat} (ps : Fin n → PState) (ph : Nat) : Prop :=
  ∃ i, ps i = ⟨ph, true⟩ ∧ ∀ j, j ≠ i → (ps j).won = false

/-- The race invariant: either nobody has acted (store untouched), or
exactly one invocation won the conditional update and the store has
advanced exactly as far as that winner's phase. -/
def InvC (st0 : St) {n : Nat} (c : ConfigF n) : Prop :=
  (c.st = st0 ∧ ∀ i, c.procs i = ⟨0, false⟩) ∨
  (c.st = (halfCondUpdate st0).1 ∧ OneWin c.procs 1) ∨
  (c.st = triggerAudioGeneration (halfCondUpdate st0).1 ∧ OneWin c.procs 2) ∨
  (c.st = setAudioRequested (triggerAudioGeneration (halfCondUpdate st0).1) ∧ OneWin c.procs 3)

theorem pstep_loser (p : PState) (st : St) (hw : p.won = false)
    (hlose : halfCondUpdate st = (st, false)) :
    (pstep p st).1 = st ∧ ((pstep p st).2).won = false := by
  rcases p with ⟨ph, w⟩
  simp only at hw
  subst hw
  rcases ph with _ | _ | _ | ph
  · unfold pstep
    rw [hlose]
    exact ⟨rfl, rfl⟩
  · unfold pstep
    simp
  · unfold pstep
    simp
  · exact ⟨rfl, rfl⟩

theorem invC_step (st0 : St) (b0 : Batch)
    (hb : st0.batch = some b0) (hp : b0.status = Status.pending)
    {n : Nat} {c c' : ConfigF n} (hstep : CStep n c c') (hinv : InvC st0 c) :
    InvC st0 c' := by
  have hwin := halfCondUpdate_win st0 b0 hb hp
  have h1b : (halfCondUpdate st0).1.batch =
      some { b0 with status := Status.halfComplete, halfCompletedAt := true } := by
    rw [hwin]
  have h2b : (triggerAudioGeneration (halfCondUpdate st0).1).batch =
      some { b0 with status := Status.halfComplete, halfCompletedAt := true } := by
    rw [(triggerAudioGeneration_parts _).1, h1b]
  have h3b : (setAudioRequested (triggerAudioGeneration (halfCondUpdate st0).1)).batch =
      some { b0 with status := Status.audioRequested, halfCompletedAt := true, audioRequestedAt := true } := by
    rw [setAudioRequested_spec _ _ h2b]
  have hlose1 : halfCondUpdate (halfCondUpdate st0).1 = ((halfCondUpdate st0).1, false) :=
    halfCondUpdate_lose _ _ h1b (by simp)
  have hlose2 : halfCondUpdate (triggerAudioGeneration (halfCondUpdate st0).1) =
      (triggerAudioGeneration (halfCondUpdate st0).1, false) :=
    halfCondUpdate_lose _ _ h2b (by simp)
  have hlose3 : halfCondUpdate (setAudioRequested (triggerAudioGeneration (halfCondUpdate st0).1)) =
      (setAudioRequested (triggerAudioGeneration (halfCondUpdate st0).1), false) :=
    halfCondUpdate_lose _ _ h3b (by simp)
  obtain ⟨i, hph, hc'⟩ := hstep
  subst hc'
  rcases hinv with ⟨hst, hall⟩ | ⟨hst, j, hj, hrest⟩ | ⟨hst, j, hj, hrest⟩ | ⟨hst, j, hj, hrest⟩
  · right; left
    refine ⟨?_, i, ?_, ?_⟩
    · show (pstep (c.procs i) c.st).1 = (halfCondUpdate st0).1
      rw [hall i, hst]
      rfl
    · show Function.update c.procs i (pstep (c.procs i) c.st).2 i = ⟨1, true⟩
      rw [Function.update_same, hall i, hst]
      show (⟨1, (halfCondUpdate st0).2⟩ : PState) = ⟨1, true⟩
      rw [hwin]
    · intro k hk
      show (Function.update c.procs i (pstep (c.procs i) c.st).2 k).won = false
      rw [Function.update_noteq hk, hall k]
  · by_cases hij : i = j
    · subst hij
      right; right; left
      refine ⟨?_, i, ?_, ?_⟩
      · show (pstep (c.procs i) c.st).1 = _
        rw [hj, hst]
        rfl
      · show Function.update c.procs i (pstep (c.procs i) c.st).2 i = ⟨2, true⟩
        rw [Function.update_same, hj]
        rfl
      · intro k hk
        show (Function.update c.procs i (pstep (c.procs i) c.st).2 k).won = false
        rw [Function.update_noteq hk]
        exact hrest k hk
    · right; left
      obtain ⟨hs1, hw1⟩ := pstep_loser (c.procs i) c.st (hrest i hij) (by rw [hst]; exact hlose1)
      refine ⟨?_, j, ?_, ?_⟩
      · show (pstep (c.procs i) c.st).1 = _
        rw [hs1, hst]
      · show Function.update c.procs i (pstep (c.procs i) c.st).2 j = ⟨1, true⟩
        rw [Function.update_noteq (Ne.symm hij), hj]
      · intro k hk
        show (Function.update c.procs i (pstep (c.procs i) c.st).2 k).won = false
        by_cases hki : k = i
        · subst hki
          rw [Function.update_same]
          exact hw1
        · rw [Function.update_noteq hki]
          exact hrest k hk
  · by_cases hij : i = j
    · subst hij
      right; right; right
      refine ⟨?_, i, ?_, ?_⟩
      · show (pstep (c.procs i) c.st).1 = _
        rw [hj, hst]
        rfl
      · show Function.update c.procs i (pstep (c.procs i) c.st).2 i = ⟨3, true⟩
        rw [Function.update_same, hj]
        rfl
      · intro k hk
        show (Function.update c.procs i (pstep (c.procs i) c.st).2 k).won = false
        rw [Function.update_noteq hk]
        exact hrest k hk
    · right; right; left
      obtain ⟨hs1, hw1⟩ := pstep_loser (c.procs i) c.st (hrest i hij) (by rw [hst]; exact hlose2)
      refine ⟨?_, j, ?_, ?_⟩
      · show (pstep (c.procs i) c.st).1 = _
        rw [hs1, hst]
      · show Function.update c.procs i (pstep (c.procs i) c.st).2 j = ⟨2, true⟩
        rw [Function.update_noteq (Ne.symm hij), hj]
      · intro k hk
        show (Function.update c.procs i (pstep (c.procs i) c.st).2 k).won = false
        by_cases hki : k = i
        · subst hki
          rw [Function.update_same]
          exact hw1
        · rw [Function.update_noteq hki]
          exact hrest k hk
  · by_cases hij : i = j
    · subst hij
      rw [hj] at hph
      exact absurd hph (by simp)
    · right; right; right
      obtain ⟨hs1, hw1⟩ := pstep_loser (c.procs i) c.st (hrest i hij) (by rw [hst]; exact hlose3)
      refine ⟨?_, j, ?_, ?_⟩
      · show (pstep (c.procs i) c.st).1 = _
        rw [hs1, hst]
      · show Function.update c.procs i (pstep (c.procs i) c.st).2 j = ⟨3, true⟩
        rw [Function.update_noteq (Ne.symm hij), hj]
      · intro k hk
        show (Function.update c.procs i (pstep (c.procs i) c.st).2 k).won = false
        by_cases hki : k = i
        · subst hki
          rw [Function.update_same]
          exact hw1
        · rw [Function.update_noteq hki]
          exact hrest k hk

theorem invC_reaches (st0 : St) (b0 : Batch)
    (hb : st0.batch = some b0) (hp : b0.status = Status.pending)
    {n : Nat} {c : ConfigF n}
    (hreach : Reaches n ⟨st0, fun _ => ⟨0, false⟩⟩ c) : InvC st0 c := by
  induction hreach with
  | refl => exact Or.inl ⟨rfl, fun i => rfl⟩
  | tail hsteps hstep ih => exact invC_step st0 b0 hb hp hstep ih

/-- C3: N concurrent invocations of handlePartialCompletion that all
observed the same pending batch at/above the 50% threshold, interleaved
arbitrarily at the granularity of their three steps (atomic conditional
update, dispatch, audio_requested write): in every complete execution
exactly one invocation wins the `pending → partial_complete`
conditional update, exactly one dispatch pass is sent (one new entry in
the dispatch log, carrying the units lacking audio), every losing
invocation leaves the store untouched, and the final store equals that
of a single sequential winning invocation. -/
theorem c3_concurrent_evaluators_single_dispatch (st0 : St) (b0 : Batch) (n : Nat)
    (hb : st0.batch = some b0) (hp : b0.status = Status.pending)
    (hL : summariesLackingAudio st0 ≠ []) (hn : 0 < n)
    (c : ConfigF n)
    (hreach : Reaches n ⟨st0, fun _ => ⟨0, false⟩⟩ c)
    (hterm : ∀ i, (c.procs i).phase = 3) :
    c.st = handleHalfCompletion st0 ∧
    c.st.dispatchLog = st0.dispatchLog ++ [(summariesLackingAudio st0).map (fun s => s.sid)] ∧
    c.st.batch.map (fun x => x.status) = some Status.audioRequested ∧
    ∃ i : Fin n, (c.procs i).won = true ∧ ∀ j : Fin n, j ≠ i → (c.procs j).won = false := by
  have hinv := invC_reaches st0 b0 hb hp hreach
  have hwin := halfCondUpdate_win st0 b0 hb hp
  have h1b : (halfCondUpdate st0).1.batch =
      some { b0 with status := Status.halfComplete, halfCompletedAt := true } := by
    rw [hwin]
  have h2b : (triggerAudioGeneration (halfCondUpdate st0).1).batch =
      some { b0 with status := Status.halfComplete, halfCompletedAt := true } := by
    rw [(triggerAudioGeneration_parts _).1, h1b]
  rcases hinv with ⟨hst, hall⟩ | ⟨hst, j, hj, hrest⟩ | ⟨hst, j, hj, hrest⟩ | ⟨hst, j, hj, hrest⟩
  · exfalso
    have h3 := hterm ⟨0, hn⟩
    rw [hall ⟨0, hn⟩] at h3
    exact absurd h3 (by simp)
  · exfalso
    have h3 := hterm j
    rw [hj] at h3
    exact absurd h3 (by simp)
  · exfalso
    have h3 := hterm j
    rw [hj] at h3
    exact absurd h3 (by simp)
  · have hH : handleHalfCompletion st0 =
        setAudioRequested (triggerAudioGeneration (halfCondUpdate st0).1) := by
      unfold handleHalfCompletion
      dsimp only
      rw [hwin]
      rfl
    have hsum : (halfCondUpdate st0).1.summaries = st0.summaries := by rw [hwin]
    have hdl : (halfCondUpdate st0).1.dispatchLog = st0.dispatchLog := by rw [hwin]
    have hlack : summariesLackingAudio (halfCondUpdate st0).1 = summariesLackingAudio st0 := by
      unfold summariesLackingAudio batchSummaries
      rw [hsum]
    have htr := trigger_sends (halfCondUpdate st0).1 _ h1b (by simp) (by simp) (by simp)
      (by rw [hlack]; exact hL)
    refine ⟨by rw [hst, hH], ?_, ?_, ⟨j, by rw [hj], hrest⟩⟩
    · rw [hst]
      rw [show ∀ u : St, (setAudioRequested u).dispatchLog = u.dispatchLog from
        fun u => batchUpdate_fst_dispatchLog _ _ u]
      rw [htr]
      dsimp only
      rw [hdl, hlack]
    · rw [hst, setAudioRequested_spec _ _ h2b]
      rfl

/-- A pending batch past the 50% threshold with one unit lacking its
artifact, observed by two concurrent Evaluator invocations. -/
def stC3 : St :=
  { batch := some { freshBatch 4 9 with receivedCount := 2 },
    summaries := [{ sid := 0, userId := "u", text := "t", inBatch := true, isAudioGenerated := false, audioUrl := none }],
    nextId := 1, dispatchLog := [], edges := [], mixes := 0 }

/-- Successor configuration when invocation `i` executes its next step. -/
def c3next (c : ConfigF 2) (i : Fin 2) : ConfigF 2 :=
  ⟨(pstep (c.procs i) c.st).1, Function.update c.procs i (pstep (c.procs i) c.st).2⟩

def c3c0 : ConfigF 2 := ⟨stC3, fun _ => ⟨0, false⟩⟩
def c3c1 : ConfigF 2 := c3next c3c0 0
def c3c2 : ConfigF 2 := c3next c3c1 1
def c3c3 : ConfigF 2 := c3next c3c2 0
def c3c4 : ConfigF 2 := c3next c3c3 1
def c3c5 : ConfigF 2 := c3next c3c4 0
def c3c6 : ConfigF 2 := c3next c3c5 1

theorem c3_run_reaches : Reaches 2 c3c0 c3c6 := by
  have s1 : CStep 2 c3c0 c3c1 := ⟨0, by decide, rfl⟩
  have s2 : CStep 2 c3c1 c3c2 := ⟨1, by decide, rfl⟩
  have s3 : CStep 2 c3c2 c3c3 := ⟨0, by decide, rfl⟩
  have s4 : CStep 2 c3c3 c3c4 := ⟨1, by decide, rfl⟩
  have s5 : CStep 2 c3c4 c3c5 := ⟨0, by decide, rfl⟩
  have s6 : CStep 2 c3c5 c3c6 := ⟨1, by decide, rfl⟩
  exact (((((Relation.ReflTransGen.refl.tail s1).tail s2).tail s3).tail s4).tail s5).tail s6

theorem c3_witness :
    c3c6.st = handleHalfCompletion stC3 ∧
    c3c6.st.dispatchLog = stC3.dispatchLog ++ [(summariesLackingAudio stC3).map (fun s => s.sid)] ∧
    c3c6.st.batch.map (fun x => x.status) = some Status.audioRequested ∧
    ∃ i : Fin 2, (c3c6.procs i).won = true ∧ ∀ j : Fin 2, j ≠ i → (c3c6.procs j).won = false :=
  c3_concurrent_evaluators_single_dispatch stC3 { freshBatch 4 9 with receivedCount := 2 } 2
    rfl rfl (by decide) (by decide) c3c6 c3_run_reaches (by decide)
